import Mathlib

/-!
# Verification of the Home Assistant list-provider core

Shallow embedding of `src/shop/app/services/list_provider.py` and
`src/app/services/list_provider.py`.  JSON payloads handed around by the
code are modelled by the `Value` type below; Python dictionary/attribute
operations that can raise (`.get` on a non-dict, iteration of a
non-iterable, `in` on an unsupported type, `.items()`, `int(...)`,
`.startswith` on a non-string) are modelled as `Option`-valued operations
where `none` stands for the raised exception, which the various
`try/except` blocks of the source catch.
-/

set_option autoImplicit false

/-- A Python/JSON value as it appears in Home Assistant API responses. -/
inductive Value where
  | vnull
  | vbool (b : Bool)
  | vint (n : Int)
  | vstr (s : String)
  | vlist (xs : List Value)
  | vdict (kvs : List (String × Value))
deriving Repr

/-- Python truthiness (`bool(v)`). -/
def Value.truthy : Value → Bool
  | .vnull => false
  | .vbool b => b
  | .vint n => n != 0
  | .vstr s => s != ""
  | .vlist xs => !xs.isEmpty
  | .vdict kvs => !kvs.isEmpty

/-- `v == s` for a Python string literal `s`: true only for an equal string. -/
def Value.eqStr : Value → String → Bool
  | .vstr a, s => a == s
  | _, _ => false

/-- `v == n` for a Python int literal `n`; Python bools compare equal to 0/1. -/
def Value.eqInt : Value → Int → Bool
  | .vint a, n => a == n
  | .vbool b, n => (if b then (1 : Int) else 0) == n
  | _, _ => false

/-- Lookup in a dict's key/value list (first binding wins). -/
def dictGet : List (String × Value) → String → Option Value
  | [], _ => none
  | (k, v) :: rest, key => if k == key then some v else dictGet rest key

/-- `kvs.get(k, d)` on a known dict (total). -/
def dictGetD (kvs : List (String × Value)) (k : String) (d : Value) : Value :=
  (dictGet kvs k).getD d

/-- `v.get(k, d)`: `none` models the `AttributeError` raised when `v` is
not a dict. -/
def Value.get? : Value → String → Value → Option Value
  | .vdict kvs, k, d => some (dictGetD kvs k d)
  | _, _, _ => none

/-- Whether a string contains another (`needle in hay` for Python strings). -/
def strContains (needle hay : String) : Bool :=
  needle == "" || (hay.splitOn needle).length != 1

/-- `k in v` for Python; `none` models the `TypeError` raised on
unsupported receivers. -/
def Value.hasKey? : Value → String → Option Bool
  | .vdict kvs, k => some ((dictGet kvs k).isSome)
  | .vlist xs, k => some (xs.any (fun x => x.eqStr k))
  | .vstr s, k => some (strContains k s)
  | _, _ => none

/-- Iteration (`for x in v`); dicts iterate over their keys, strings over
their characters; `none` models the `TypeError` on non-iterables. -/
def Value.iter? : Value → Option (List Value)
  | .vlist xs => some xs
  | .vdict kvs => some (kvs.map (fun kv => Value.vstr kv.1))
  | .vstr s => some (s.toList.map (fun c => Value.vstr (String.singleton c)))
  | _ => none

/-- `v.items()`; `none` models the `AttributeError` on non-dicts. -/
def Value.dictItems? : Value → Option (List (String × Value))
  | .vdict kvs => some kvs
  | _ => none

/-- `s.startswith(p)` on strings (structural prefix test on the
character lists). -/
def strStartsWith (s p : String) : Bool :=
  p.data.isPrefixOf s.data

/-- `.startswith(p)` applied to `v`; `none` models the `AttributeError`
raised when `v` is not a string. -/
def Value.startsWith? : Value → String → Option Bool
  | .vstr s, p => some (strStartsWith s p)
  | _, _ => none

/-- `int(v)`; `none` models the `TypeError`/`ValueError` raised when `v`
cannot be converted. -/
def pyInt? : Value → Option Int
  | .vint n => some n
  | .vbool b => some (if b then 1 else 0)
  | .vstr s => s.trim.toInt?
  | _ => none

mutual

/-- `repr(v)`, used by Python when stringifying containers. -/
def Value.pyRepr : Value → String
  | .vnull => "None"
  | .vbool b => if b then "True" else "False"
  | .vint n => toString n
  | .vstr s => String.singleton (Char.ofNat 39) ++ s ++ String.singleton (Char.ofNat 39)
  | .vlist xs => "[" ++ pyReprList xs ++ "]"
  | .vdict kvs => "\x7b" ++ pyReprDict kvs ++ "\x7d"

/-- Comma-separated reprs of the elements of a list. -/
def pyReprList : List Value → String
  | [] => ""
  | [x] => Value.pyRepr x
  | x :: y :: rest => Value.pyRepr x ++ ", " ++ pyReprList (y :: rest)

/-- Comma-separated reprs of the entries of a dict. -/
def pyReprDict : List (String × Value) → String
  | [] => ""
  | [(k, v)] =>
      String.singleton (Char.ofNat 39) ++ k ++ String.singleton (Char.ofNat 39)
        ++ ": " ++ Value.pyRepr v
  | (k, v) :: e :: rest =>
      String.singleton (Char.ofNat 39) ++ k ++ String.singleton (Char.ofNat 39)
        ++ ": " ++ Value.pyRepr v ++ ", " ++ pyReprDict (e :: rest)

end

/-- `str(v)`: the string itself for strings, `repr`-style otherwise. -/
def Value.pyStr : Value → String
  | .vstr s => s
  | v => v.pyRepr

/-- Python `a or b`: `a` if truthy, else `b`. -/
def vOr (a b : Value) : Value :=
  if a.truthy then a else b

/-- Decidable equality for `Value`. -/
def Value.beq : Value → Value → Bool
  | .vnull, .vnull => true
  | .vbool a, .vbool b => a == b
  | .vint a, .vint b => a == b
  | .vstr a, .vstr b => a == b
  | .vlist (a :: as'), .vlist (b :: bs) => Value.beq a b && Value.beq (.vlist as') (.vlist bs)
  | .vlist [], .vlist [] => true
  | .vdict ((ka, va) :: as'), .vdict ((kb, vb) :: bs) =>
      ka == kb && Value.beq va vb && Value.beq (.vdict as') (.vdict bs)
  | .vdict [], .vdict [] => true
  | _, _ => false

theorem Value.beq_iff_eq : ∀ a b : Value, Value.beq a b = true ↔ a = b := by
  intro a b
  induction a, b using Value.beq.induct <;> (try simp_all [Value.beq])
  next x y h1 h2 h3 h4 h5 h6 h7 h8 =>
    intro he
    subst he
    cases x with
    | vnull => exact h1 rfl rfl
    | vbool bb =>
        cases bb with
        | false => exact h2.1.1 rfl rfl
        | true => exact h2.2.2 rfl rfl
    | vint n => exact h3 n n rfl rfl
    | vstr s => exact h4 s s rfl rfl
    | vlist xs =>
        cases xs with
        | nil => exact h6 rfl rfl
        | cons z zs => exact h5 z zs z zs rfl rfl
    | vdict kvs =>
        cases kvs with
        | nil => exact h8 rfl rfl
        | cons kv rest =>
            obtain ⟨k, v⟩ := kv
            exact h7 k v rest k v rest rfl rfl

instance : BEq Value := ⟨Value.beq⟩

instance : DecidableEq Value := fun a b =>
  decidable_of_iff (Value.beq a b = true) (Value.beq_iff_eq a b)

/-- The outcome of one HTTP request made by the provider: a 200 response
with a JSON body, a non-200 response, or a raised transport exception. -/
inductive HResp where
  | ok (body : Value)
  | err
  | exn
deriving Repr, DecidableEq

/-- The Home Assistant backend as seen through the provider's HTTP calls,
plus the stream of `uuid.uuid4()` draws used by the Bring handler (indexed
by the raw item's position).  One field per request shape. -/
structure Http where
  /-- `GET /api/states` -/
  states : HResp
  /-- `GET /api/states/\x7bentity_id\x7d` -/
  state : String → HResp
  /-- `GET /api/todo/items?entity_id=...` -/
  todoItems : String → HResp
  /-- `POST /api/services/todo/get_items?return_response` with `entity_id` -/
  getItemsSvc : String → HResp
  /-- the same service call with the extra Bring `list_id` parameter -/
  getItemsSvcL : String → String → HResp
  /-- `GET /api/shopping_list` -/
  shoppingList : HResp
  /-- `GET /api/services/todo` -/
  todoServices : HResp
  /-- `str(uuid.uuid4())` -/
  uuid4 : Nat → String

/-- One item dict appended by a handler: always an `id` and a `name`
value; `status?` is `some` only for the handlers that add a `"status"`
key to the dict. -/
structure NItem where
  id : Value
  name : Value
  status? : Option Value
deriving Repr, DecidableEq

/-- The dict returned by the shop version's `get_list_items`. -/
structure Resolved where
  items : List NItem
  total_count : Nat
  truncated : Bool
deriving Repr, DecidableEq

/-- One list summary dict built by the app version's `get_lists`;
`integration` is `none` for the legacy summary, whose dict has no
`integration` key. -/
structure Summary where
  id : Value
  name : Value
  item_count : Nat
  integration : Option Value
deriving Repr, DecidableEq

/-! ## Handlers shared verbatim by both source files -/

/-- `_get_local_todo_items` filtering loop (list comprehension with
`enumerate`). -/
def localTodoLoop : Nat → List Value → Option (List NItem)
  | _, [] => some []
  | i, item :: rest => do
    let c1 ← item.get? "complete" (.vbool false)
    let c2 ← item.get? "completed" (.vbool false)
    if c1.truthy || c2.truthy then localTodoLoop (i + 1) rest
    else do
      let id0 ← item.get? "id" (.vstr ("item_" ++ toString i))
      let nm ← item.get? "name" (.vstr "")
      let out ← localTodoLoop (i + 1) rest
      pure (⟨id0, nm, none⟩ :: out)

/-- `_get_local_todo_items`. -/
def getLocalTodoItems (w : Http) (list_id : String) : List NItem :=
  match w.state list_id with
  | .exn => []
  | .err => []
  | .ok body =>
    (do
      let attrs ← body.get? "attributes" (.vdict [])
      let items ← attrs.get? "items" (.vlist [])
      let xs ← items.iter?
      localTodoLoop 0 xs).getD []

/-- `_get_google_tasks_items` service-call comprehension. -/
def googleSvcLoop : List Value → Option (List NItem)
  | [] => some []
  | item :: rest => do
    let st ← item.get? "status" (.vstr "")
    if st.eqStr "completed" then googleSvcLoop rest
    else do
      let id0 ← item.get? "id" (.vstr "")
      let nm ← item.get? "summary" (.vstr "")
      let out ← googleSvcLoop rest
      pure (⟨id0, nm, none⟩ :: out)

/-- `_get_google_tasks_items` state-fallback comprehension
(`summary or title`). -/
def googleStateLoop : List Value → Option (List NItem)
  | [] => some []
  | item :: rest => do
    let st ← item.get? "status" (.vstr "")
    if st.eqStr "completed" then googleStateLoop rest
    else do
      let id0 ← item.get? "id" (.vstr "")
      let s1 ← item.get? "summary" (.vstr "")
      let s2 ← item.get? "title" (.vstr "")
      let out ← googleStateLoop rest
      pure (⟨id0, vOr s1 s2, none⟩ :: out)

/-- `_get_google_tasks_items`. -/
def getGoogleTasksItems (w : Http) (list_id : String) : List NItem :=
  match w.getItemsSvc list_id with
  | .exn => []
  | .ok body =>
    (do
      let items ← body.get? "items" (.vlist [])
      let xs ← items.iter?
      googleSvcLoop xs).getD []
  | .err =>
    match w.state list_id with
    | .exn => []
    | .err => []
    | .ok body =>
      (do
        let attrs ← body.get? "attributes" (.vdict [])
        let items ← attrs.get? "items" (.vlist [])
        let xs ← items.iter?
        googleStateLoop xs).getD []

/-- `_get_todoist_items` comprehension (identical on both branches). -/
def todoistLoop : List Value → Option (List NItem)
  | [] => some []
  | item :: rest => do
    let c1 ← item.get? "checked" (.vbool false)
    let c2 ← item.get? "completed" (.vbool false)
    if c1.truthy || c2.truthy then todoistLoop rest
    else do
      let id0 ← item.get? "id" (.vstr "")
      let s1 ← item.get? "content" (.vstr "")
      let s2 ← item.get? "name" (.vstr "")
      let out ← todoistLoop rest
      pure (⟨id0, vOr s1 s2, none⟩ :: out)

/-- `_get_todoist_items`. -/
def getTodoistItems (w : Http) (list_id : String) : List NItem :=
  match w.getItemsSvc list_id with
  | .exn => []
  | .ok body =>
    (do
      let items ← body.get? "items" (.vlist [])
      let xs ← items.iter?
      todoistLoop xs).getD []
  | .err =>
    match w.state list_id with
    | .exn => []
    | .err => []
    | .ok body =>
      (do
        let attrs ← body.get? "attributes" (.vdict [])
        let items ← attrs.get? "items" (.vlist [])
        let xs ← items.iter?
        todoistLoop xs).getD []

/-- `_get_caldav_items` comprehension: only `status == "COMPLETED"` is
filtered, the output dicts have just `uid` and `summary or description`. -/
def caldavLoop : List Value → Option (List NItem)
  | [] => some []
  | item :: rest => do
    let st ← item.get? "status" (.vstr "")
    if st.eqStr "COMPLETED" then caldavLoop rest
    else do
      let id0 ← item.get? "uid" (.vstr "")
      let s1 ← item.get? "summary" (.vstr "")
      let s2 ← item.get? "description" (.vstr "")
      let out ← caldavLoop rest
      pure (⟨id0, vOr s1 s2, none⟩ :: out)

/-- `_get_caldav_items`. -/
def getCaldavItems (w : Http) (list_id : String) : List NItem :=
  match w.state list_id with
  | .exn => []
  | .err => []
  | .ok body =>
    (do
      let attrs ← body.get? "attributes" (.vdict [])
      let items ← attrs.get? "todos" (.vlist [])
      let xs ← items.iter?
      caldavLoop xs).getD []

/-- `_get_alexa_todo_items` service-call comprehension; the filter is
`item.get("complete", False) != True`, and Python's `True` equals `1`. -/
def alexaSvcLoop : List Value → Option (List NItem)
  | [] => some []
  | item :: rest => do
    let c ← item.get? "complete" (.vbool false)
    if c.eqInt 1 then alexaSvcLoop rest
    else do
      let i1 ← item.get? "itemId" (.vstr "")
      let i2 ← item.get? "id" (.vstr "")
      let t1 ← item.get? "text" (.vstr "")
      let t2 ← item.get? "name" (.vstr "")
      let out ← alexaSvcLoop rest
      pure (⟨vOr i1 i2, vOr t1 t2, none⟩ :: out)

/-- `_get_alexa_todo_items` state-attribute loop; it checks
`isinstance(item, dict)` first, so bare strings are handled without
raising. -/
def alexaAttrLoop : Nat → List Value → List NItem
  | _, [] => []
  | i, .vdict kvs :: rest =>
      if (dictGetD kvs "complete" (.vbool false)).truthy
          || (dictGetD kvs "completed" (.vbool false)).truthy then
        alexaAttrLoop (i + 1) rest
      else
        ⟨vOr (dictGetD kvs "itemId" (.vstr "")) (dictGetD kvs "id" (.vstr (toString i))),
         vOr (dictGetD kvs "text" (.vstr "")) (dictGetD kvs "name" (.vstr "")),
         none⟩ :: alexaAttrLoop (i + 1) rest
  | i, item :: rest =>
      ⟨.vstr ("item_" ++ toString i), .vstr item.pyStr, none⟩ :: alexaAttrLoop (i + 1) rest

/-- `_get_alexa_todo_items` probe over the five candidate attribute
names; the first truthy attribute wins and its loop result is returned
unconditionally. -/
def alexaStateProbe (body : Value) : List String → Option (Option (List NItem))
  | [] => some none
  | a :: rest => do
    let attrs ← body.get? "attributes" (.vdict [])
    let items ← attrs.get? a (.vlist [])
    if items.truthy then do
      let xs ← items.iter?
      pure (some (alexaAttrLoop 0 xs))
    else alexaStateProbe body rest

/-- `_get_alexa_todo_items`, shop version. -/
def getAlexaTodoItems (w : Http) (list_id : String) : List NItem :=
  match w.getItemsSvc list_id with
  | .exn => []
  | .ok body =>
    (do
      let items ← body.get? "items" (.vlist [])
      let xs ← items.iter?
      alexaSvcLoop xs).getD []
  | .err =>
    match w.state list_id with
    | .exn => []
    | .err => []
    | .ok body =>
      match alexaStateProbe body ["items", "item_names", "todos", "to_dos", "tasks"] with
      | none => []
      | some (some r) => r
      | some none => []

/-- The log comprehension `[s.get('service') for s in services]` run by
the app version's alexa handler on the `GET /api/services/todo` body. -/
def alexaServicesScan : List Value → Option (List Value)
  | [] => some []
  | s :: rest => do
    let v ← s.get? "service" .vnull
    let out ← alexaServicesScan rest
    pure (v :: out)

/-- Tail of the app version's `_get_alexa_todo_items`: the extra
`GET /api/services/todo` is issued for logging only, every outcome ends
in an empty result. -/
def appAlexaTail (w : Http) : List NItem :=
  match w.todoServices with
  | .exn => []
  | .err => []
  | .ok body =>
    match body.iter? >>= alexaServicesScan with
    | _ => []

/-- `_get_alexa_todo_items`, app version. -/
def appGetAlexaTodoItems (w : Http) (list_id : String) : List NItem :=
  match w.getItemsSvc list_id with
  | .exn => []
  | .ok body =>
    (do
      let items ← body.get? "items" (.vlist [])
      let xs ← items.iter?
      alexaSvcLoop xs).getD []
  | .err =>
    match w.state list_id with
    | .exn => []
    | .err => appAlexaTail w
    | .ok body =>
      match alexaStateProbe body ["items", "item_names", "todos", "to_dos", "tasks"] with
      | none => []
      | some (some r) => r
      | some none => appAlexaTail w

/-- `_get_legacy_shopping_list_items` comprehension. -/
def legacyLoop : List Value → Option (List NItem)
  | [] => some []
  | item :: rest => do
    let c ← item.get? "complete" (.vbool false)
    if c.truthy then legacyLoop rest
    else do
      let id0 ← item.get? "id" (.vstr "")
      let nm ← item.get? "name" (.vstr "")
      let out ← legacyLoop rest
      pure (⟨id0, nm, none⟩ :: out)

/-- `_get_legacy_shopping_list_items`. -/
def getLegacyShoppingListItems (w : Http) : List NItem :=
  match w.shoppingList with
  | .exn => []
  | .err => []
  | .ok body =>
    (do
      let xs ← body.iter?
      legacyLoop xs).getD []

/-! ## The generic (unknown-integration) handler -/

/-- State-attribute loop of `_get_generic_items` / the app's
`get_list_items` generic path.  A bare string raises `AttributeError` at
the first `.get`, so in Python the trailing `isinstance(item, str)`
override only ever runs for dicts, where it does nothing. -/
def genericLoop : Nat → List Value → Option (List NItem)
  | _, [] => some []
  | i, item :: rest => do
    let c ← item.get? "complete" (.vbool false)
    let st ← item.get? "status" (.vstr "")
    if c.truthy || st.eqStr "completed" then genericLoop (i + 1) rest
    else do
      let uid ← item.get? "uid" (.vstr "")
      let id2 ← item.get? "id" (.vstr "")
      let iid ← item.get? "item_id" (.vstr "")
      let item_id := vOr uid (vOr id2 (vOr iid (.vstr (toString i))))
      let s1 ← item.get? "summary" (.vstr "")
      let s2 ← item.get? "name" (.vstr "")
      let s3 ← item.get? "description" (.vstr "")
      let s4 ← item.get? "title" (.vstr "")
      let item_name := vOr s1 (vOr s2 (vOr s3 (vOr s4 (.vstr item.pyStr))))
      let idName :=
        match item with
        | .vstr s => (Value.vstr ("item_" ++ toString i), Value.vstr s)
        | _ => (item_id, item_name)
      let st2 ← item.get? "status" (.vstr "needs_action")
      let out ← genericLoop (i + 1) rest
      pure (⟨idName.1, idName.2, some st2⟩ :: out)

/-- The `for items_attribute in potential_item_attributes` scan: the
first truthy candidate is processed and its result returned
unconditionally. -/
def genericProbeFirst : List Value → Option (Option (List NItem))
  | [] => some none
  | v :: rest =>
    if v.truthy then do
      let xs ← v.iter?
      let r ← genericLoop 0 xs
      pure (some r)
    else genericProbeFirst rest

/-- `potential_item_attributes`: all four `.get` calls are evaluated up
front, then scanned. -/
def genericProbe (attrs : Value) : Option (Option (List NItem)) := do
  let a1 ← attrs.get? "items" (.vlist [])
  let a2 ← attrs.get? "item" (.vlist [])
  let a3 ← attrs.get? "todo_items" (.vlist [])
  let a4 ← attrs.get? "entity_items" (.vlist [])
  genericProbeFirst [a1, a2, a3, a4]

/-- The comprehension used by both the `/api/todo/items` branch and the
`todo.get_items` service branch of the generic handler. -/
def apiFilterLoop : List Value → Option (List NItem)
  | [] => some []
  | item :: rest => do
    let st ← item.get? "status" .vnull
    if st.eqStr "completed" then apiFilterLoop rest
    else do
      let uid ← item.get? "uid" (.vstr "")
      let nm ← item.get? "summary" (.vstr "")
      let st2 ← item.get? "status" (.vstr "needs_action")
      let out ← apiFilterLoop rest
      pure (⟨uid, nm, some st2⟩ :: out)

/-- Tail of the generic handler: the `/api/todo/items` endpoint, then the
`todo.get_items` service, then `return []`. -/
def genericTail (w : Http) (list_id : String) : Option (List NItem) :=
  match w.todoItems list_id with
  | .exn => none
  | .ok body => do
      let xs ← body.iter?
      apiFilterLoop xs
  | .err =>
    match w.getItemsSvc list_id with
    | .exn => none
    | .ok body => do
        let items ← body.get? "items" (.vlist [])
        let xs ← items.iter?
        apiFilterLoop xs
    | .err => some []

/-- Body of the shop version's `_get_generic_items` `try` block; `none`
is an exception reaching the `except` handler. -/
def genericBody (w : Http) (list_id : String) : Option (List NItem) :=
  match w.state list_id with
  | .exn => none
  | .err => genericTail w list_id
  | .ok body =>
    match body.get? "attributes" (.vdict []) with
    | none => none
    | some attrs =>
      match genericProbe attrs with
      | none => none
      | some (some r) => some r
      | some none =>
        match attrs.get? "friendly_name" (.vstr "") with
        | none => none
        | some fn =>
          if fn.truthy then
            match body.get? "state" .vnull with
            | none => none
            | some _ => genericTail w list_id
          else genericTail w list_id

/-- `_get_generic_items` (shop version). -/
def getGenericItems (w : Http) (list_id : String) : List NItem :=
  (genericBody w list_id).getD []

/-! ## The Bring handler -/

/-- Names probed on the entity attributes by the Bring state fallback. -/
def bringAttrNames : List String :=
  ["items", "item_names", "purchases", "shopping_list", "products"]

/-- Parsing of the `todo.get_items` response envelope used by the Bring
handler: nested `service_response[entity_id].items`, else the direct
`items` array. -/
def bringParseEnvelope (body : Value) (list_id : String) : Option Value := do
  let hk ← body.hasKey? "service_response"
  if hk then do
    let sr ← body.get? "service_response" (.vdict [])
    let hk2 ← sr.hasKey? list_id
    if hk2 then do
      let ed ← sr.get? list_id (.vdict [])
      ed.get? "items" (.vlist [])
    else pure (Value.vlist [])
  else body.get? "items" (.vlist [])

/-- The Bring service-call loop: drops items whose `status` is
`"completed"` or whose `complete`, `checked` or `purchase` field is
truthy; falls back to `str(uuid.uuid4())` for the id.  A bare string
raises at the first `.get` (the `isinstance` override below it is dead
for strings). -/
def bringSvcLoop (u : Nat → String) : Nat → List Value → Option (List NItem)
  | _, [] => some []
  | i, item :: rest => do
    let st ← item.get? "status" (.vstr "")
    let c ← item.get? "complete" (.vbool false)
    let ch ← item.get? "checked" (.vbool false)
    let p ← item.get? "purchase" (.vbool false)
    if st.eqStr "completed" || c.truthy || ch.truthy || p.truthy then
      bringSvcLoop u (i + 1) rest
    else do
      let uid ← item.get? "uid" (.vstr "")
      let id2 ← item.get? "id" (.vstr "")
      let iid ← item.get? "item_id" (.vstr "")
      let item_id := vOr uid (vOr id2 (vOr iid (.vstr (u i))))
      let s1 ← item.get? "summary" (.vstr "")
      let s2 ← item.get? "name" (.vstr "")
      let s3 ← item.get? "text" (.vstr "")
      let nm0 := vOr s1 (vOr s2 (vOr s3 (.vstr item.pyStr)))
      let q ← item.get? "quantity" .vnull
      let nm1 := if q.truthy then Value.vstr (nm0.pyStr ++ " (" ++ q.pyStr ++ ")") else nm0
      let idName :=
        match item with
        | .vstr s => (Value.vstr ("item_" ++ toString i), Value.vstr s)
        | _ => (item_id, nm1)
      let out ← bringSvcLoop u (i + 1) rest
      pure (⟨idName.1, idName.2, none⟩ :: out)

/-- The Bring state-attribute loop: `isinstance(item, dict)` first, so
bare strings become `item_\x7bi\x7d` entries; dict items are dropped only on
`status == "completed"`, `complete` or `purchase` (not `checked`). -/
def bringStateLoop : Nat → List Value → List NItem
  | _, [] => []
  | i, .vdict kvs :: rest =>
      if (dictGetD kvs "status" (.vstr "")).eqStr "completed"
          || (dictGetD kvs "complete" (.vbool false)).truthy
          || (dictGetD kvs "purchase" (.vbool false)).truthy then
        bringStateLoop (i + 1) rest
      else
        let item_id := vOr (dictGetD kvs "uid" (.vstr ""))
          (vOr (dictGetD kvs "id" (.vstr "")) (.vstr (toString i)))
        let nm0 := vOr (dictGetD kvs "summary" (.vstr ""))
          (vOr (dictGetD kvs "name" (.vstr "")) (.vstr (Value.vdict kvs).pyStr))
        let q := dictGetD kvs "quantity" .vnull
        let nm := if q.truthy then Value.vstr (nm0.pyStr ++ " (" ++ q.pyStr ++ ")") else nm0
        ⟨item_id, nm, none⟩ :: bringStateLoop (i + 1) rest
  | i, item :: rest =>
      ⟨.vstr ("item_" ++ toString i), .vstr item.pyStr, none⟩ :: bringStateLoop (i + 1) rest

/-- The Bring state-attribute probe: the first truthy attribute name
wins and its loop output is returned unconditionally, even when all of
its items were filtered out. -/
def bringStateProbe (attrs : Value) : List String → Option (Option (List NItem))
  | [] => some none
  | a :: rest => do
    let items ← attrs.get? a (.vlist [])
    if items.truthy then do
      let xs ← items.iter?
      pure (some (bringStateLoop 0 xs))
    else bringStateProbe attrs rest

/-- The `purchase_items` loop: non-dict entries are silently skipped;
dict entries are dropped when `purchased` is truthy. -/
def purchaseLoop : List (String × Value) → List NItem
  | [] => []
  | (k, v) :: rest =>
    match v with
    | .vdict kvs =>
      if (dictGetD kvs "purchased" (.vbool false)).truthy then purchaseLoop rest
      else
        let nm0 := vOr (dictGetD kvs "name" (.vstr "")) (.vstr k)
        let q := dictGetD kvs "quantity" .vnull
        let nm := if q.truthy then Value.vstr (nm0.pyStr ++ " (" ++ q.pyStr ++ ")") else nm0
        ⟨.vstr k, nm, none⟩ :: purchaseLoop rest
    | _ => purchaseLoop rest

/-- The last-resort Bring loop (raw-`list_id` service call): dict items
are dropped on `status == "completed"`, `complete` or `purchased`; the
name prefers `name` over `summary`. -/
def bringLastLoop : Nat → List Value → List NItem
  | _, [] => []
  | i, .vdict kvs :: rest =>
      if (dictGetD kvs "status" (.vstr "")).eqStr "completed"
          || (dictGetD kvs "complete" (.vbool false)).truthy
          || (dictGetD kvs "purchased" (.vbool false)).truthy then
        bringLastLoop (i + 1) rest
      else
        ⟨vOr (dictGetD kvs "uid" (.vstr ""))
           (vOr (dictGetD kvs "id" (.vstr "")) (.vstr (toString i))),
         vOr (dictGetD kvs "name" (.vstr ""))
           (vOr (dictGetD kvs "summary" (.vstr "")) (.vstr (Value.vdict kvs).pyStr)),
         none⟩ :: bringLastLoop (i + 1) rest
  | i, item :: rest =>
      ⟨.vstr ("item_" ++ toString i), .vstr item.pyStr, none⟩ :: bringLastLoop (i + 1) rest

/-- Inner `try` of the shop version's last-resort Bring attempt; only the
nested envelope shape is parsed there, and the result is returned only
when non-empty.  `none` covers both a caught exception and "nothing
found". -/
def shopBringLastTry (w : Http) (list_id : String) : Option (List NItem) :=
  match w.getItemsSvcL list_id (list_id.replace "todo." "") with
  | .exn => none
  | .err => none
  | .ok body =>
    match (do
      let hk ← body.hasKey? "service_response"
      if hk then do
        let sr ← body.get? "service_response" (.vdict [])
        let hk2 ← sr.hasKey? list_id
        if hk2 then do
          let ed ← sr.get? list_id (.vdict [])
          let items ← ed.get? "items" (.vlist [])
          let xs ← items.iter?
          pure (some (bringLastLoop 0 xs))
        else pure none
      else pure none : Option (Option (List NItem))) with
    | none => none
    | some none => none
    | some (some active) => if active.isEmpty then none else some active

/-- The shop version's last-resort section: whatever happens inside the
inner `try`, control reaches the final `return []` unless items were
found. -/
def shopBringLast (w : Http) (list_id : String) : Option (List NItem) :=
  some ((shopBringLastTry w list_id).getD [])

/-- Body of the shop version's `_get_bring_items` `try` block. -/
def shopBringBody (w : Http) (list_id : String) : Option (List NItem) :=
  match w.getItemsSvc list_id with
  | .exn => none
  | .ok body => do
    let items ← bringParseEnvelope body list_id
    let xs ← items.iter?
    bringSvcLoop w.uuid4 0 xs
  | .err =>
    match w.state list_id with
    | .exn => none
    | .err => shopBringLast w list_id
    | .ok body =>
      match body.get? "attributes" (.vdict []) with
      | none => none
      | some attrs =>
        match bringStateProbe attrs bringAttrNames with
        | none => none
        | some (some r) => some r
        | some none =>
          match attrs.hasKey? "purchase_items" with
          | none => none
          | some true =>
            match attrs.get? "purchase_items" (.vdict []) with
            | none => none
            | some pi =>
              match pi.dictItems? with
              | none => none
              | some kvs =>
                let active := purchaseLoop kvs
                if active.isEmpty then shopBringLast w list_id else some active
          | some false => shopBringLast w list_id

/-- `_get_bring_items` (shop version). -/
def shopGetBringItems (w : Http) (list_id : String) : List NItem :=
  (shopBringBody w list_id).getD []

/-! ## Shop orchestration: classification, dispatch, `get_list_items` -/

/-- `_detect_integration_type` (shop version).  Note that the
`"integration" in attrs` membership test fires for any present value,
even an empty or `None` one, and that value is returned verbatim; the
legacy-id check runs only when the key is absent. -/
def detectIntegrationType (w : Http) (list_id : String) : Value :=
  match w.state list_id with
  | .exn => .vstr "unknown"
  | .err => .vstr "unknown"
  | .ok body =>
    (do
      let attrs ← body.get? "attributes" (.vdict [])
      let sf ← attrs.get? "supported_features" (.vint 0)
      if sf.eqInt 71 then pure (Value.vstr "bring")
      else do
        let hk ← attrs.hasKey? "integration"
        if hk then attrs.get? "integration" .vnull
        else if list_id == "shopping_list.shopping_list" then
          pure (Value.vstr "legacy_shopping_list")
        else pure (Value.vstr "unknown")).getD (.vstr "unknown")

/-- `_get_items_by_integration` (shop version): case-sensitive dispatch
on the detected value; anything unrecognized goes to the generic
handler. -/
def getItemsByIntegration (w : Http) (list_id : String) (itype : Value) : List NItem :=
  if itype.eqStr "local_todo" then getLocalTodoItems w list_id
  else if itype.eqStr "google_tasks" then getGoogleTasksItems w list_id
  else if itype.eqStr "todoist" then getTodoistItems w list_id
  else if itype.eqStr "caldav" then getCaldavItems w list_id
  else if itype.eqStr "alexa_todo" then getAlexaTodoItems w list_id
  else if itype.eqStr "bring" then shopGetBringItems w list_id
  else if itype.eqStr "legacy_shopping_list" then getLegacyShoppingListItems w
  else getGenericItems w list_id

/-- `get_list_items` (shop version); `list_id` is the configured
`todo_list_entity_id` and `limit` the optional caller-supplied cap.  The
truncation test is Python's `if limit and limit > 0 and
limit < len(all_items)` and the reported flag is
`limit is not None and total_count > limit`. -/
def getListItems (w : Http) (list_id : String) (limit : Option Int) : Resolved :=
  let itype := detectIntegrationType w list_id
  let allItems := getItemsByIntegration w list_id itype
  let total := allItems.length
  let itemsToReturn :=
    match limit with
    | none => allItems
    | some n =>
      if n != 0 && decide (0 < n) && decide (n < (total : Int)) then
        allItems.take n.toNat
      else allItems
  let trunc :=
    match limit with
    | none => false
    | some n => decide (n < (total : Int))
  ⟨itemsToReturn, total, trunc⟩

/-! ## App version: Bring handler with related-entity fallback -/

/-- The app version's Bring related-entity loop (no `checked` filter, no
quantity suffix). -/
def bringRelatedLoop : Nat → List Value → List NItem
  | _, [] => []
  | i, .vdict kvs :: rest =>
      if (dictGetD kvs "status" (.vstr "")).eqStr "completed"
          || (dictGetD kvs "complete" (.vbool false)).truthy
          || (dictGetD kvs "purchase" (.vbool false)).truthy then
        bringRelatedLoop (i + 1) rest
      else
        ⟨vOr (dictGetD kvs "uid" (.vstr ""))
           (vOr (dictGetD kvs "id" (.vstr "")) (.vstr (toString i))),
         vOr (dictGetD kvs "summary" (.vstr ""))
           (vOr (dictGetD kvs "name" (.vstr "")) (.vstr (Value.vdict kvs).pyStr)),
         none⟩ :: bringRelatedLoop (i + 1) rest
  | i, item :: rest =>
      ⟨.vstr ("item_" ++ toString i), .vstr item.pyStr, none⟩ :: bringRelatedLoop (i + 1) rest

/-- Attribute probe on one related entity: unlike the direct state probe,
the result is returned only when non-empty, otherwise the remaining
attribute names are tried. -/
def bringRelatedProbe (attrs : Value) : List String → Option (Option (List NItem))
  | [] => some none
  | a :: rest => do
    let items ← attrs.get? a (.vlist [])
    if items.truthy then do
      let xs ← items.iter?
      let active := bringRelatedLoop 0 xs
      if active.isEmpty then bringRelatedProbe attrs rest else pure (some active)
    else bringRelatedProbe attrs rest

/-- Scan of the candidate related entities; a raised exception abandons
the whole related-entity attempt (the inner `except` logs and falls
through). -/
def bringRelatedScan : List Value → Option (List NItem)
  | [] => none
  | e :: rest =>
    match e.get? "attributes" (.vdict []) with
    | none => none
    | some attrs =>
      match bringRelatedProbe attrs bringAttrNames with
      | none => none
      | some (some r) => some r
      | some none => bringRelatedScan rest

/-- The related-entity comprehension filter: `todo.*`/`sensor.*` ids
other than the target whose id contains the stripped list name or the
substring `"bring"` (lowercased). -/
def bringRelatedFilter (list_id : String) : List Value → Option (List Value)
  | [] => some []
  | e :: rest => do
    let eid ← e.get? "entity_id" (.vstr "")
    match eid with
    | .vstr s =>
      let eid2 ← e.get? "entity_id" .vnull
      let base := list_id.replace "todo." ""
      let cond := (strStartsWith s "todo." || strStartsWith s "sensor.")
        && !(eid2.eqStr list_id)
        && (strContains base s || strContains "bring" s.toLower)
      let rest' ← bringRelatedFilter list_id rest
      pure (if cond then e :: rest' else rest')
    | _ => none

/-- The app version's related-entity attempt, guarded by
`int(state_value) > 0`; `none` is "no result" (including any caught
exception). -/
def appBringRelated (w : Http) (list_id : String) (sv : Value) : Option (List NItem) :=
  match pyInt? sv with
  | none => none
  | some n =>
    if 0 < n then
      match w.states with
      | .exn => none
      | .err => none
      | .ok body =>
        match body.iter? with
        | none => none
        | some all =>
          match bringRelatedFilter list_id all with
          | none => none
          | some related => bringRelatedScan related
    else none

/-- Inner `try` of the app version's last-resort Bring attempt: both
envelope shapes are parsed, the loop runs only when the raw item list is
truthy, and only a non-empty result is returned. -/
def appBringLastTry (w : Http) (list_id : String) : Option (List NItem) :=
  match w.getItemsSvcL list_id (list_id.replace "todo." "") with
  | .exn => none
  | .err => none
  | .ok body =>
    match (do
      let items ← bringParseEnvelope body list_id
      if items.truthy then do
        let xs ← items.iter?
        pure (some (bringLastLoop 0 xs))
      else pure none : Option (Option (List NItem))) with
    | none => none
    | some none => none
    | some (some active) => if active.isEmpty then none else some active

/-- The app version's last-resort section with its final `return []`. -/
def appBringLast (w : Http) (list_id : String) : Option (List NItem) :=
  some ((appBringLastTry w list_id).getD [])

/-- Body of the app version's `_get_bring_items` `try` block. -/
def appBringBody (w : Http) (list_id : String) : Option (List NItem) :=
  match w.getItemsSvc list_id with
  | .exn => none
  | .ok body => do
    let items ← bringParseEnvelope body list_id
    let xs ← items.iter?
    bringSvcLoop w.uuid4 0 xs
  | .err =>
    match w.state list_id with
    | .exn => none
    | .err => appBringLast w list_id
    | .ok body =>
      match body.get? "attributes" (.vdict []) with
      | none => none
      | some attrs =>
        match bringStateProbe attrs bringAttrNames with
        | none => none
        | some (some r) => some r
        | some none =>
          match attrs.hasKey? "purchase_items" with
          | none => none
          | some hk =>
            let purchased : Option (List NItem) :=
              if hk then
                match attrs.get? "purchase_items" (.vdict []) with
                | none => none
                | some pi =>
                  match pi.dictItems? with
                  | none => none
                  | some kvs =>
                    let active := purchaseLoop kvs
                    if active.isEmpty then none else some active
              else none
            match purchased with
            | some r => some r
            | none =>
              match body.get? "state" .vnull with
              | none => none
              | some sv =>
                match appBringRelated w list_id sv with
                | some r => some r
                | none => appBringLast w list_id

/-- `_get_bring_items` (app version). -/
def appGetBringItems (w : Http) (list_id : String) : List NItem :=
  (appBringBody w list_id).getD []

/-! ## App version: generic path and `get_lists` -/

/-- The app generic path's related-entity loop (appends a literal
`"needs_action"` status). -/
def genericRelatedLoop : Nat → List Value → Option (List NItem)
  | _, [] => some []
  | i, item :: rest => do
    let c ← item.get? "complete" (.vbool false)
    let st ← item.get? "status" (.vstr "")
    if c.truthy || st.eqStr "completed" then genericRelatedLoop (i + 1) rest
    else do
      let uid ← item.get? "uid" (.vstr "")
      let id2 ← item.get? "id" (.vstr "")
      let item_id := vOr uid (vOr id2 (.vstr (toString i)))
      let s1 ← item.get? "summary" (.vstr "")
      let s2 ← item.get? "name" (.vstr "")
      let item_name := vOr s1 (vOr s2 (.vstr item.pyStr))
      let idName :=
        match item with
        | .vstr s => (Value.vstr ("item_" ++ toString i), Value.vstr s)
        | _ => (item_id, item_name)
      let out ← genericRelatedLoop (i + 1) rest
      pure (⟨idName.1, idName.2, some (.vstr "needs_action")⟩ :: out)

/-- The app generic path's comprehension over all states selecting other
`todo.*` entities. -/
def appRelatedFilter (list_id : String) : List Value → Option (List Value)
  | [] => some []
  | e :: rest => do
    let eid ← e.get? "entity_id" (.vstr "")
    let b ← eid.startsWith? "todo."
    if b then do
      let eid2 ← e.get? "entity_id" .vnull
      let rest' ← appRelatedFilter list_id rest
      pure (if eid2.eqStr list_id then rest' else e :: rest')
    else appRelatedFilter list_id rest

/-- Scan of the related entities in the app generic path; only a
non-empty result is returned and any raised exception abandons the whole
attempt. -/
def appRelatedScan : List Value → Option (List NItem)
  | [] => none
  | e :: rest =>
    match (do
      let attrs ← e.get? "attributes" (.vdict [])
      attrs.get? "items" (.vlist []) : Option Value) with
    | none => none
    | some items =>
      if items.truthy then
        match items.iter? >>= genericRelatedLoop 0 with
        | none => none
        | some active => if active.isEmpty then appRelatedScan rest else some active
      else appRelatedScan rest

/-- The app generic path's related-entity attempt (inner `try`). -/
def appRelatedAttempt (w : Http) (list_id : String) : Option (List NItem) :=
  match w.states with
  | .exn => none
  | .err => none
  | .ok body =>
    match body.iter? with
    | none => none
    | some all =>
      match appRelatedFilter list_id all with
      | none => none
      | some related => appRelatedScan related

/-- Body of the `try` block of the app version's `get_list_items` when no
specialized handler matched. -/
def appGenericBody (w : Http) (list_id : String) : Option (List NItem) :=
  if list_id == "shopping_list.shopping_list" then
    some (getLegacyShoppingListItems w)
  else
    match w.state list_id with
    | .exn => none
    | .err => genericTail w list_id
    | .ok body =>
      match body.get? "attributes" (.vdict []) with
      | none => none
      | some attrs =>
        match genericProbe attrs with
        | none => none
        | some (some r) => some r
        | some none =>
          match attrs.get? "friendly_name" (.vstr "") with
          | none => none
          | some fn =>
            if fn.truthy then
              match body.get? "state" .vnull with
              | none => none
              | some _ =>
                match appRelatedAttempt w list_id with
                | some r => some r
                | none => genericTail w list_id
            else genericTail w list_id

/-- `get_list_items` (app version): dispatch on the caller-supplied
integration type, then the generic `try` block. -/
def appGetListItems (w : Http) (list_id : String) (itype : Value) : List NItem :=
  if itype.eqStr "local_todo" then getLocalTodoItems w list_id
  else if itype.eqStr "google_tasks" then getGoogleTasksItems w list_id
  else if itype.eqStr "todoist" then getTodoistItems w list_id
  else if itype.eqStr "caldav" then getCaldavItems w list_id
  else if itype.eqStr "alexa_todo" then appGetAlexaTodoItems w list_id
  else if itype.eqStr "bring" then appGetBringItems w list_id
  else (appGenericBody w list_id).getD []

/-- The classification expression of the app version's `get_lists`:
`"bring" if supported_features == 71 else attrs.get("integration",
"unknown")`. -/
def appClassifyType (attrs : Value) : Option Value := do
  let sf ← attrs.get? "supported_features" (.vint 0)
  if sf.eqInt 71 then pure (Value.vstr "bring")
  else attrs.get? "integration" (.vstr "unknown")

/-- The todo-entity test of `get_lists`:
`state.get("entity_id", "").startswith("todo.")`. -/
def todoLikeCheck (s : Value) : Option Bool := do
  let eid ← s.get? "entity_id" (.vstr "")
  eid.startsWith? "todo."

/-- The `todo_entities` comprehension of `get_lists`. -/
def filterTodoLike : List Value → Option (List Value)
  | [] => some []
  | s :: rest => do
    let b ← todoLikeCheck s
    let rest' ← filterTodoLike rest
    pure (if b then s :: rest' else rest')

/-- The `bring_entities` scan of `get_lists` (result only logged, but its
attribute accesses can raise). -/
def bringScan : List Value → Option Unit
  | [] => some ()
  | e :: rest => do
    let _ ← e.get? "entity_id" (.vstr "")
    let attrs ← e.get? "attributes" (.vdict [])
    let _ ← attrs.get? "supported_features" (.vint 0)
    bringScan rest

/-- The example-entity logging block of `get_lists` (runs on the first
todo entity when one exists; only its raising accesses matter). -/
def exampleLog : List Value → Option Unit
  | [] => some ()
  | e :: _ => do
    let _ ← e.get? "entity_id" (.vstr "")
    let attrs ← e.get? "attributes" (.vdict [])
    let _ ← e.get? "state" .vnull
    let _ ← attrs.get? "friendly_name" .vnull
    let _ ← attrs.get? "supported_features" .vnull
    let _ ← attrs.get? "integration" (.vstr "unknown")
    pure ()

/-- The main per-state loop of `get_lists`: every `todo.*` entity yields
one summary dict (with an `integration` key). -/
def getListsLoop (w : Http) : List Value → Option (List Summary)
  | [] => some []
  | s :: rest => do
    let eid ← s.get? "entity_id" (.vstr "")
    match eid with
    | .vstr lid =>
      if strStartsWith lid "todo." then do
        let attrs ← s.get? "attributes" (.vdict [])
        let fname ← attrs.get? "friendly_name" (.vstr (lid.replace "todo." ""))
        let _ ← attrs.get? "integration" .vnull
        let itype ← appClassifyType attrs
        let items := appGetListItems w lid itype
        let rest' ← getListsLoop w rest
        pure (⟨.vstr lid, fname, items.length, some itype⟩ :: rest')
      else getListsLoop w rest
    | _ => none

/-- The active-item count of `_try_legacy_shopping_list`. -/
def legacyCount : List Value → Option Nat
  | [] => some 0
  | item :: rest => do
    let c ← item.get? "complete" (.vbool false)
    let n ← legacyCount rest
    pure (if c.truthy then n else n + 1)

/-- `_try_legacy_shopping_list`: `none` models both a failed request and
a caught exception (the function returns `None` in those cases); the
summary dict built on success has no `integration` key. -/
def tryLegacy (w : Http) : Option Summary :=
  match w.shoppingList with
  | .exn => none
  | .err => none
  | .ok body =>
    match body.iter? >>= legacyCount with
    | none => none
    | some n =>
      some ⟨.vstr "shopping_list.shopping_list", .vstr "Shopping List (Legacy)", n, none⟩

/-- Body of the `try` block of `get_lists`. -/
def getListsBody (w : Http) : Option (List Summary) :=
  match w.states with
  | .exn => none
  | .err => some []
  | .ok body => do
    let states ← body.iter?
    let todoEntities ← filterTodoLike states
    let _ ← bringScan todoEntities
    let _ ← exampleLog todoEntities
    let summaries ← getListsLoop w states
    if summaries.isEmpty then
      match tryLegacy w with
      | some s => pure [s]
      | none => pure []
    else pure summaries

/-- `get_lists` (app version). -/
def getLists (w : Http) : List Summary :=
  (getListsBody w).getD []

/-! ## Spec-side predicates (for comparison with the code) -/

/-- The Bring completion predicate as the spec words it (§4.3): an item
is completed when `status == "completed"` or its `complete`, `checked`
or `purchase` field is truthy; absent fields read as `None` and items
that are not records satisfy none of the disjuncts. -/
def bringCompletedSpec (item : Value) : Bool :=
  ((item.get? "status" .vnull).getD .vnull).eqStr "completed"
    || ((item.get? "complete" .vnull).getD .vnull).truthy
    || ((item.get? "checked" .vnull).getD .vnull).truthy
    || ((item.get? "purchase" .vnull).getD .vnull).truthy

/-- The `NormalizedItem` shape as the spec words it (§3): non-empty id
string, non-empty name string, and a status equal to `NeedsAction`
(`"needs_action"` on the wire). -/
def normalizedShapeSpec (x : NItem) : Prop :=
  (∃ s, x.id = Value.vstr s ∧ s ≠ "") ∧
  (∃ s, x.name = Value.vstr s ∧ s ≠ "") ∧
  x.status? = some (.vstr "needs_action")

/-- The seven integration values with a dedicated branch in
`_get_items_by_integration`. -/
def knownIntegrationKind (v : Value) : Bool :=
  v.eqStr "local_todo" || v.eqStr "google_tasks" || v.eqStr "todoist"
    || v.eqStr "caldav" || v.eqStr "alexa_todo" || v.eqStr "bring"
    || v.eqStr "legacy_shopping_list"

/-- Every request the provider can make raises a transport error. -/
def AllExn (w : Http) : Prop :=
  w.states = .exn ∧ (∀ s, w.state s = .exn) ∧ (∀ s, w.todoItems s = .exn) ∧
  (∀ s, w.getItemsSvc s = .exn) ∧ (∀ a b, w.getItemsSvcL a b = .exn) ∧
  w.shoppingList = .exn ∧ w.todoServices = .exn

/-- Whether a value is a Python dict. -/
def Value.isDictB : Value → Bool
  | .vdict _ => true
  | _ => false

/-- `get_lists` treats a state as a todo list iff this test is `true`. -/
def isTodoLike (s : Value) : Bool := todoLikeCheck s == some true

/-! ## Concrete backends used by the counterexamples and witnesses -/

/-- A backend that answers every request with a non-200 response. -/
def wBase : Http :=
  { states := .err, state := fun _ => .err, todoItems := fun _ => .err,
    getItemsSvc := fun _ => .err, getItemsSvcL := fun _ _ => .err,
    shoppingList := .err, todoServices := .err, uuid4 := fun _ => "u" }

/-- Answer `r` for entity `id0`, non-200 otherwise. -/
def onEntity (id0 : String) (r : HResp) : String → HResp :=
  fun id => if id = id0 then r else HResp.err

/-- State body with `supported_features = 71` and a conflicting
`integration` attribute. -/
def body1 : Value :=
  .vdict [("attributes",
    .vdict [("supported_features", .vint 71), ("integration", .vstr "todoist")])]

/-- Backend for the C1 witness. -/
def w1 : Http := { wBase with state := onEntity "todo.x" (.ok body1) }

/-- Attributes with a present-but-empty `integration` value. -/
def attrs6 : Value := .vdict [("integration", .vstr "")]

/-- Backend for C6: the reserved legacy entity carries an empty
`integration` attribute. -/
def w6 : Http :=
  { wBase with
    state := onEntity "shopping_list.shopping_list" (.ok (.vdict [("attributes", attrs6)])) }

/-- State body whose `items` attribute holds one active `Milk` item. -/
def milkState : Value :=
  .vdict [("attributes", .vdict [("items", .vlist [.vdict [("summary", .vstr "Milk")]])])]

/-- Backend for C3: one active item reachable through the generic state
path. -/
def w3 : Http := { wBase with state := onEntity "todo.x" (.ok milkState) }

/-- Backend for C2: the Bring service call fails with non-200 and the
entity state holds a single item whose only completion marker is a
truthy `checked` field. -/
def w2 : Http :=
  { wBase with
    state := onEntity "todo.x" (.ok (.vdict [("attributes",
      .vdict [("items", .vlist [.vdict [("checked", .vbool true), ("name", .vstr "Eggs")]])])])) }

/-- Backend for C4: the Bring service call succeeds with zero items while
the entity state holds an active `Milk` item. -/
def w4 : Http :=
  { wBase with
    getItemsSvc := onEntity "todo.x" (.ok (.vdict [("items", .vlist [])])),
    state := onEntity "todo.x" (.ok milkState) }

/-- Like `w4` but the service call answers non-200, so the chain reaches
the state attempt. -/
def w4b : Http := { w4 with getItemsSvc := fun _ => .err }

/-- The fully unreachable backend of C5. -/
def wExn : Http :=
  { states := .exn, state := fun _ => .exn, todoItems := fun _ => .exn,
    getItemsSvc := fun _ => .exn, getItemsSvcL := fun _ _ => .exn,
    shoppingList := .exn, todoServices := .exn, uuid4 := fun _ => "" }

/-- Backend for C7: one CalDav todo that is an empty record. -/
def w7 : Http :=
  { wBase with
    state := onEntity "todo.c" (.ok (.vdict [("attributes", .vdict [("todos", .vlist [.vdict []])])])) }

/-- Backend for C8: the `items` state attribute holds one bare string. -/
def w8 : Http :=
  { wBase with
    state := onEntity "todo.g" (.ok (.vdict [("attributes", .vdict [("items", .vlist [.vstr "Milk"])])])) }

/-- The legacy payload of the C9 scenario. -/
def soapItem : Value :=
  .vdict [("id", .vstr "1"), ("name", .vstr "Soap"), ("complete", .vbool false)]

/-- Backend for C9: no todo-like entity, legacy endpoint holds one
active item. -/
def w9 : Http :=
  { wBase with
    states := .ok (.vlist [.vdict [("entity_id", .vstr "sensor.a")]]),
    shoppingList := .ok (.vlist [soapItem]) }

/-- Backend for C10: one todo entity while the legacy endpoint still
holds an active item. -/
def w10 : Http :=
  { wBase with
    states := .ok (.vlist [.vdict [("entity_id", .vstr "todo.a")]]),
    shoppingList := .ok (.vlist [soapItem]) }

/-- Raw items for the C2 witness: one checked item, one active item. -/
def c2items : List Value :=
  [.vdict [("checked", .vbool true)], .vdict [("name", .vstr "Milk")]]

/-! ## C1 -/

/-- C1: for every entity snapshot whose attributes hold
`supported_features = 71`, both versions' classification yields the Bring
kind regardless of any `integration` attribute: the shop version's
`_detect_integration_type` returns `"bring"` and the app version's
classification expression does too.  No hypothesis constrains the
`integration` attribute, so the `supported_features` test is decided
first. -/
theorem c1_supported_features_is_bring
    (w : Http) (list_id : String) (body attrs : Value)
    (hstate : w.state list_id = .ok body)
    (hattrs : body.get? "attributes" (.vdict []) = some attrs)
    (hsf : attrs.get? "supported_features" (.vint 0) = some (.vint 71)) :
    detectIntegrationType w list_id = .vstr "bring" ∧
    appClassifyType attrs = some (.vstr "bring") := by
  constructor
  · unfold detectIntegrationType
    rw [hstate]
    simp [Option.bind, hattrs, hsf, Value.eqInt]
  · unfold appClassifyType
    simp [Option.bind, hsf, Value.eqInt]

/-- Witness for C1 at a Bring entity with a conflicting
`integration = "todoist"` attribute. -/
theorem c1_supported_features_is_bring_witness :
    detectIntegrationType w1 "todo.x" = .vstr "bring" ∧
    appClassifyType
        (.vdict [("supported_features", .vint 71), ("integration", .vstr "todoist")])
      = some (.vstr "bring") :=
  c1_supported_features_is_bring w1 "todo.x" body1
    (.vdict [("supported_features", .vint 71), ("integration", .vstr "todoist")])
    rfl rfl rfl

/-! ## C6 -/

/-- C6 counterexample: on the reserved legacy entity with a
present-but-empty `integration` attribute, classification returns the
empty string verbatim; it does not fall through to the legacy-id check
(which would give `"legacy_shopping_list"`) nor to `"unknown"`. -/
theorem c6_empty_integration_counterexample :
    detectIntegrationType w6 "shopping_list.shopping_list" = .vstr "" ∧
    (Value.vstr "" ≠ .vstr "legacy_shopping_list") ∧
    (Value.vstr "" ≠ .vstr "unknown") := by
  refine ⟨rfl, ?_, ?_⟩ <;>
    exact fun h => absurd (Value.vstr.inj h) (by decide)

/-- C6 amended: whenever the `integration` key is present (empty or
not), classification returns its value verbatim; the legacy-id check is
reached only when the key is absent; any value without a dedicated
dispatch branch is handled by the generic handler (no exception). -/
theorem c6_integration_literal
    (w : Http) (list_id : String) (body attrs sf v : Value)
    (hstate : w.state list_id = .ok body)
    (hattrs : body.get? "attributes" (.vdict []) = some attrs)
    (hsf : attrs.get? "supported_features" (.vint 0) = some sf)
    (hsf71 : sf.eqInt 71 = false)
    (hkey : attrs.hasKey? "integration" = some true)
    (hval : attrs.get? "integration" .vnull = some v) :
    detectIntegrationType w list_id = v ∧
    (knownIntegrationKind v = false →
      getItemsByIntegration w list_id v = getGenericItems w list_id) := by
  constructor
  · unfold detectIntegrationType
    rw [hstate]
    simp [Option.bind, hattrs, hsf, hsf71, hkey, hval]
  · intro hk
    simp only [knownIntegrationKind, Bool.or_eq_false_iff] at hk
    obtain ⟨⟨⟨⟨⟨⟨k1, k2⟩, k3⟩, k4⟩, k5⟩, k6⟩, k7⟩ := hk
    unfold getItemsByIntegration
    simp [k1, k2, k3, k4, k5, k6, k7]

/-- Witness for C6 at the empty-`integration` legacy entity. -/
theorem c6_integration_literal_witness :
    detectIntegrationType w6 "shopping_list.shopping_list" = .vstr "" ∧
    (knownIntegrationKind (.vstr "") = false →
      getItemsByIntegration w6 "shopping_list.shopping_list" (.vstr "")
        = getGenericItems w6 "shopping_list.shopping_list") :=
  c6_integration_literal w6 "shopping_list.shopping_list"
    (.vdict [("attributes", attrs6)]) attrs6 (.vint 0) (.vstr "")
    rfl rfl rfl (by decide) rfl rfl

/-! ## C3 -/

/-- C3 counterexample: with one active item and caller limit `0`
(falsy in Python), the full list comes back: one item instead of
`min 0 total = 0`. -/
theorem c3_limit_zero_counterexample :
    (getListItems w3 "todo.x" (some 0)).items.length = 1 ∧
    (getListItems w3 "todo.x" (some 0)).total_count = 1 ∧
    ¬ ((getListItems w3 "todo.x" (some 0)).items.length
        = min 0 (getListItems w3 "todo.x" (some 0)).total_count) := by
  refine ⟨by decide, by decide, by decide⟩

/-- C3 amended: for every positive limit `N ≥ 1`, `get_list_items`
returns the head of the untruncated sequence of length
`min N total_count`, the pre-truncation `total_count`, and
`truncated = (N < total_count)`. -/
theorem c3_positive_limit
    (w : Http) (list_id : String) (n : Int) (h : 1 ≤ n) :
    (getListItems w list_id (some n)).total_count
        = (getListItems w list_id none).total_count ∧
    (getListItems w list_id (some n)).items
        = (getListItems w list_id none).items.take
            (min n.toNat (getListItems w list_id none).total_count) ∧
    (getListItems w list_id (some n)).items.length
        = min n.toNat (getListItems w list_id none).total_count ∧
    (getListItems w list_id (some n)).truncated
        = decide (n < ((getListItems w list_id none).total_count : Int)) := by
  have key : ∀ A : List NItem,
      (⟨if n != 0 && decide (0 < n) && decide (n < (A.length : Int))
          then A.take n.toNat else A,
        A.length, decide (n < (A.length : Int))⟩ : Resolved).total_count
          = (⟨A, A.length, false⟩ : Resolved).total_count ∧
      (⟨if n != 0 && decide (0 < n) && decide (n < (A.length : Int))
          then A.take n.toNat else A,
        A.length, decide (n < (A.length : Int))⟩ : Resolved).items
          = (⟨A, A.length, false⟩ : Resolved).items.take
              (min n.toNat (⟨A, A.length, false⟩ : Resolved).total_count) ∧
      (⟨if n != 0 && decide (0 < n) && decide (n < (A.length : Int))
          then A.take n.toNat else A,
        A.length, decide (n < (A.length : Int))⟩ : Resolved).items.length
          = min n.toNat (⟨A, A.length, false⟩ : Resolved).total_count ∧
      (⟨if n != 0 && decide (0 < n) && decide (n < (A.length : Int))
          then A.take n.toNat else A,
        A.length, decide (n < (A.length : Int))⟩ : Resolved).truncated
          = decide (n < ((⟨A, A.length, false⟩ : Resolved).total_count : Int)) := by
    intro A
    by_cases hlt : n < (A.length : Int)
    · have h0 : (n != 0) = true := by simp only [bne_iff_ne, ne_eq]; omega
      have h1 : decide (0 < n) = true := by simp only [decide_eq_true_eq]; omega
      have h2 : decide (n < (A.length : Int)) = true := by
        simp only [decide_eq_true_eq]; omega
      have hmin : min n.toNat A.length = n.toNat := by omega
      simp [h0, h1, h2, hmin, List.length_take]
    · have h2 : decide (n < (A.length : Int)) = false := by
        simp only [decide_eq_false_iff_not]; omega
      have hmin : min n.toNat A.length = A.length := by omega
      simp [h2, hmin, List.take_length]
  exact key (getItemsByIntegration w list_id (detectIntegrationType w list_id))

/-- Witness for C3 at limit `1` over a single-item list. -/
theorem c3_positive_limit_witness :
    (1 : Int) ≤ 1 ∧
    (getListItems w3 "todo.x" (some 1)).items
      = (getListItems w3 "todo.x" none).items.take
          (min (1 : Int).toNat (getListItems w3 "todo.x" none).total_count) :=
  ⟨by decide, (c3_positive_limit w3 "todo.x" 1 (by decide)).2.1⟩

/-! ## C4 -/

/-- C4 counterexample: a Bring service call that succeeds (200) with
zero items stops the chain with an empty result, even though the
state-attribute attempt would have yielded an item — as shown by the
same backend with a non-200 service call. -/
theorem c4_empty_success_stops_counterexample :
    shopGetBringItems w4 "todo.x" = [] ∧
    shopGetBringItems w4b "todo.x" = [⟨.vstr "0", .vstr "Milk", none⟩] :=
  ⟨rfl, rfl⟩

/-- C4 amended: only a non-200 service response lets the Bring chain
proceed; a 200 response determines the result even when its normalized
sequence is empty (the state-attribute attempt is not consulted). -/
theorem c4_success_stops_chain
    (w : Http) (list_id : String) (body : Value) (items : List Value) (out : List NItem)
    (hok : w.getItemsSvc list_id = .ok body)
    (hsr : body.hasKey? "service_response" = some false)
    (hitems : body.get? "items" (.vlist []) = some (.vlist items))
    (hloop : bringSvcLoop w.uuid4 0 items = some out) :
    shopGetBringItems w list_id = out := by
  unfold shopGetBringItems shopBringBody
  rw [hok]
  simp [Option.bind, bringParseEnvelope, hsr, hitems, Value.iter?, hloop]

/-- Witness for C4: the zero-item 200 response of `w4` determines the
empty result. -/
theorem c4_success_stops_chain_witness :
    shopGetBringItems w4 "todo.x" = [] :=
  c4_success_stops_chain w4 "todo.x" (.vdict [("items", .vlist [])]) [] []
    rfl rfl rfl rfl

/-! ## C2 -/

/-- On a record item, the spec's Bring predicate coincides with the
condition tested by the service-call loop (the differing absent-field
defaults are immaterial). -/
theorem bringCompletedSpec_dict (kvs : List (String × Value)) :
    bringCompletedSpec (.vdict kvs)
      = ((dictGetD kvs "status" (.vstr "")).eqStr "completed"
          || (dictGetD kvs "complete" (.vbool false)).truthy
          || (dictGetD kvs "checked" (.vbool false)).truthy
          || (dictGetD kvs "purchase" (.vbool false)).truthy) := by
  simp only [bringCompletedSpec, Value.get?, Option.getD_some]
  unfold dictGetD
  cases dictGet kvs "status" <;> cases dictGet kvs "complete" <;>
    cases dictGet kvs "checked" <;> cases dictGet kvs "purchase" <;> rfl

/-- C2 counterexample: an item whose only completion marker is a truthy
`checked` field is completed for the spec's Bring predicate, yet the
Bring state-attribute extraction path returns it. -/
theorem c2_checked_leak_counterexample :
    bringCompletedSpec (.vdict [("checked", .vbool true), ("name", .vstr "Eggs")]) = true ∧
    shopGetBringItems w2 "todo.x" = [⟨.vstr "0", .vstr "Eggs", none⟩] :=
  ⟨rfl, rfl⟩

/-- C2 amended: the Bring service-call loop drops exactly the raw items
satisfying the four-marker predicate (when it completes without raising,
its output has one entry per surviving raw item); the state-attribute
path checks only `status`/`complete`/`purchase`, so `checked` items leak
there. -/
theorem c2_svc_loop_filters (u : Nat → String) :
    ∀ (items : List Value) (i : Nat) (out : List NItem),
      bringSvcLoop u i items = some out →
      out.length = items.countP (fun it => !bringCompletedSpec it) := by
  intro items
  induction items with
  | nil =>
      intro i out h
      simp only [bringSvcLoop, Option.some_inj] at h
      simp [← h]
  | cons item rest ih =>
      intro i out h
      cases item with
      | vdict kvs =>
          rw [bringSvcLoop] at h
          simp only [Value.get?, Option.bind_eq_bind, Option.some_bind] at h
          by_cases hc : ((dictGetD kvs "status" (.vstr "")).eqStr "completed"
              || (dictGetD kvs "complete" (.vbool false)).truthy
              || (dictGetD kvs "checked" (.vbool false)).truthy
              || (dictGetD kvs "purchase" (.vbool false)).truthy)
          · rw [if_pos hc] at h
            have := ih (i + 1) out h
            rw [this, List.countP_cons]
            simp [bringCompletedSpec_dict, hc]
          · rw [if_neg hc] at h
            simp only [Option.bind_eq_bind, Option.bind_eq_some, Option.pure_def,
              Option.some_inj] at h
            obtain ⟨out', hout', rfl⟩ := h
            have := ih (i + 1) out' hout'
            rw [List.countP_cons]
            simp [bringCompletedSpec_dict, hc, this]
      | vnull => simp [bringSvcLoop, Value.get?] at h
      | vbool b => simp [bringSvcLoop, Value.get?] at h
      | vint n => simp [bringSvcLoop, Value.get?] at h
      | vstr s => simp [bringSvcLoop, Value.get?] at h
      | vlist xs => simp [bringSvcLoop, Value.get?] at h

/-- Witness for C2: two raw items, one checked and one active; the loop
keeps exactly the active one. -/
theorem c2_svc_loop_filters_witness :
    bringSvcLoop (fun _ => "u") 0 c2items = some [⟨.vstr "u", .vstr "Milk", none⟩] ∧
    ([(⟨.vstr "u", .vstr "Milk", none⟩ : NItem)]).length
      = c2items.countP (fun it => !bringCompletedSpec it) :=
  ⟨rfl, c2_svc_loop_filters (fun _ => "u") c2items 0 [⟨.vstr "u", .vstr "Milk", none⟩] rfl⟩

/-! ## C5 -/

/-- C5: when every request raises a transport error, `get_list_items`
returns the empty result with `total_count = 0` and `truncated = false`
(for the default call and any non-negative limit), rather than
propagating an exception. -/
theorem c5_unreachable_empty
    (w : Http) (hw : AllExn w) (list_id : String) (limit : Option Int)
    (hl : limit = none ∨ ∃ n, limit = some n ∧ 0 ≤ n) :
    getListItems w list_id limit = ⟨[], 0, false⟩ := by
  obtain ⟨h1, h2, h3, h4, h5, h6, h7⟩ := hw
  have hdet : detectIntegrationType w list_id = .vstr "unknown" := by
    unfold detectIntegrationType
    rw [h2]
  have hgen : getGenericItems w list_id = [] := by
    unfold getGenericItems genericBody
    rw [h2]
    rfl
  have hitems : getItemsByIntegration w list_id (.vstr "unknown") = [] := by
    unfold getItemsByIntegration
    simp only [Value.eqStr]
    norm_num
    exact hgen
  rcases hl with rfl | ⟨n, rfl, hn⟩
  · have e : getListItems w list_id none
        = ⟨getItemsByIntegration w list_id (detectIntegrationType w list_id),
           (getItemsByIntegration w list_id (detectIntegrationType w list_id)).length,
           false⟩ := rfl
    rw [e, hdet, hitems]
    rfl
  · have e : getListItems w list_id (some n)
        = ⟨if (n != 0 && decide (0 < n)
              && decide (n < ((getItemsByIntegration w list_id
                  (detectIntegrationType w list_id)).length : Int)))
            then (getItemsByIntegration w list_id (detectIntegrationType w list_id)).take n.toNat
            else getItemsByIntegration w list_id (detectIntegrationType w list_id),
           (getItemsByIntegration w list_id (detectIntegrationType w list_id)).length,
           decide (n < ((getItemsByIntegration w list_id
              (detectIntegrationType w list_id)).length : Int))⟩ := rfl
    rw [e, hdet, hitems]
    have hd : decide (n < (([] : List NItem).length : Int)) = false := by
      simp only [List.length_nil, decide_eq_false_iff_not, Nat.cast_zero]
      omega
    simp [hd]
    omega

/-- Witness for C5 at the fully unreachable backend. -/
theorem c5_unreachable_empty_witness :
    AllExn wExn ∧ getListItems wExn "todo.z" none = ⟨[], 0, false⟩ :=
  ⟨⟨rfl, fun _ => rfl, fun _ => rfl, fun _ => rfl, fun _ _ => rfl, rfl, rfl⟩,
    c5_unreachable_empty wExn
      ⟨rfl, fun _ => rfl, fun _ => rfl, fun _ => rfl, fun _ _ => rfl, rfl, rfl⟩
      "todo.z" none (Or.inl rfl)⟩

/-! ## C7 -/

/-- Items built by the CalDav comprehension carry no `status` key. -/
theorem caldavLoop_status :
    ∀ (xs : List Value) (out : List NItem), caldavLoop xs = some out →
      ∀ x ∈ out, x.status? = none := by
  intro xs
  induction xs with
  | nil =>
      intro out h x hx
      simp only [caldavLoop, Option.some_inj] at h
      subst h
      simp at hx
  | cons item rest ih =>
      intro out h x hx
      cases item with
      | vdict kvs =>
          rw [caldavLoop] at h
          simp only [Value.get?, Option.bind_eq_bind, Option.some_bind] at h
          by_cases hc : (dictGetD kvs "status" (.vstr "")).eqStr "COMPLETED"
          · rw [if_pos hc] at h
            exact ih out h x hx
          · rw [if_neg hc] at h
            simp only [Option.bind_eq_bind, Option.bind_eq_some, Option.pure_def,
              Option.some_inj] at h
            obtain ⟨out', hout', rfl⟩ := h
            simp only [List.mem_cons] at hx
            rcases hx with rfl | hx
            · rfl
            · exact ih out' hout' x hx
      | vnull => simp [caldavLoop, Value.get?] at h
      | vbool b => simp [caldavLoop, Value.get?] at h
      | vint n => simp [caldavLoop, Value.get?] at h
      | vstr s => simp [caldavLoop, Value.get?] at h
      | vlist ys => simp [caldavLoop, Value.get?] at h

/-- Items built by the local-todo comprehension carry no `status` key. -/
theorem localTodoLoop_status :
    ∀ (xs : List Value) (i : Nat) (out : List NItem), localTodoLoop i xs = some out →
      ∀ x ∈ out, x.status? = none := by
  intro xs
  induction xs with
  | nil =>
      intro i out h x hx
      simp only [localTodoLoop, Option.some_inj] at h
      subst h
      simp at hx
  | cons item rest ih =>
      intro i out h x hx
      cases item with
      | vdict kvs =>
          rw [localTodoLoop] at h
          simp only [Value.get?, Option.bind_eq_bind, Option.some_bind] at h
          by_cases hc : ((dictGetD kvs "complete" (.vbool false)).truthy
              || (dictGetD kvs "completed" (.vbool false)).truthy)
          · rw [if_pos hc] at h
            exact ih (i + 1) out h x hx
          · rw [if_neg hc] at h
            simp only [Option.bind_eq_bind, Option.bind_eq_some, Option.pure_def,
              Option.some_inj] at h
            obtain ⟨out', hout', rfl⟩ := h
            simp only [List.mem_cons] at hx
            rcases hx with rfl | hx
            · rfl
            · exact ih (i + 1) out' hout' x hx
      | vnull => simp [localTodoLoop, Value.get?] at h
      | vbool b => simp [localTodoLoop, Value.get?] at h
      | vint n => simp [localTodoLoop, Value.get?] at h
      | vstr s => simp [localTodoLoop, Value.get?] at h
      | vlist ys => simp [localTodoLoop, Value.get?] at h

/-- A `status` stored by the generic state-attribute loop never equals
`"completed"`. -/
theorem genericLoop_status :
    ∀ (xs : List Value) (i : Nat) (out : List NItem), genericLoop i xs = some out →
      ∀ x ∈ out, ∀ v, x.status? = some v → v.eqStr "completed" = false := by
  intro xs
  induction xs with
  | nil =>
      intro i out h x hx
      simp only [genericLoop, Option.some_inj] at h
      subst h
      simp at hx
  | cons item rest ih =>
      intro i out h x hx v hv
      cases item with
      | vdict kvs =>
          rw [genericLoop] at h
          simp only [Value.get?, Option.bind_eq_bind, Option.some_bind] at h
          by_cases hc : ((dictGetD kvs "complete" (.vbool false)).truthy
              || (dictGetD kvs "status" (.vstr "")).eqStr "completed")
          · rw [if_pos hc] at h
            exact ih (i + 1) out h x hx v hv
          · rw [if_neg hc] at h
            simp only [Option.bind_eq_bind, Option.bind_eq_some, Option.pure_def,
              Option.some_inj] at h
            obtain ⟨out', hout', rfl⟩ := h
            simp only [List.mem_cons] at hx
            rcases hx with rfl | hx
            · injection hv with hv
              subst hv
              simp only [Bool.or_eq_true, not_or, Bool.not_eq_true] at hc
              unfold dictGetD at hc ⊢
              rcases hget : dictGet kvs "status" with - | u
              · rfl
              · rw [hget] at hc
                simp only [Option.getD_some] at hc ⊢
                exact hc.2
            · exact ih (i + 1) out' hout' x hx v hv
      | vnull => simp [genericLoop, Value.get?] at h
      | vbool b => simp [genericLoop, Value.get?] at h
      | vint n => simp [genericLoop, Value.get?] at h
      | vstr s => simp [genericLoop, Value.get?] at h
      | vlist ys => simp [genericLoop, Value.get?] at h

/-- A `status` stored by the todo-API/service comprehension never equals
`"completed"`. -/
theorem apiFilterLoop_status :
    ∀ (xs : List Value) (out : List NItem), apiFilterLoop xs = some out →
      ∀ x ∈ out, ∀ v, x.status? = some v → v.eqStr "completed" = false := by
  intro xs
  induction xs with
  | nil =>
      intro out h x hx
      simp only [apiFilterLoop, Option.some_inj] at h
      subst h
      simp at hx
  | cons item rest ih =>
      intro out h x hx v hv
      cases item with
      | vdict kvs =>
          rw [apiFilterLoop] at h
          simp only [Value.get?, Option.bind_eq_bind, Option.some_bind] at h
          by_cases hc : (dictGetD kvs "status" Value.vnull).eqStr "completed"
          · rw [if_pos hc] at h
            exact ih out h x hx v hv
          · rw [if_neg hc] at h
            simp only [Option.bind_eq_bind, Option.bind_eq_some, Option.pure_def,
              Option.some_inj] at h
            obtain ⟨out', hout', rfl⟩ := h
            simp only [List.mem_cons] at hx
            rcases hx with rfl | hx
            · injection hv with hv
              subst hv
              simp only [Bool.not_eq_true] at hc
              unfold dictGetD at hc ⊢
              rcases hget : dictGet kvs "status" with - | u
              · rfl
              · rw [hget] at hc
                simp only [Option.getD_some] at hc ⊢
                exact hc
            · exact ih out' hout' x hx v hv
      | vnull => simp [apiFilterLoop, Value.get?] at h
      | vbool b => simp [apiFilterLoop, Value.get?] at h
      | vint n => simp [apiFilterLoop, Value.get?] at h
      | vstr s => simp [apiFilterLoop, Value.get?] at h
      | vlist ys => simp [apiFilterLoop, Value.get?] at h

/-- Lifting `genericLoop_status` through the attribute probe. -/
theorem genericProbeFirst_status :
    ∀ (vs : List Value) (r : List NItem), genericProbeFirst vs = some (some r) →
      ∀ x ∈ r, ∀ v, x.status? = some v → v.eqStr "completed" = false := by
  intro vs
  induction vs with
  | nil => intro r h; simp [genericProbeFirst] at h
  | cons a rest ih =>
      intro r h
      rw [genericProbeFirst] at h
      by_cases ha : a.truthy
      · rw [if_pos ha] at h
        simp only [Option.bind_eq_bind, Option.bind_eq_some, Option.pure_def,
          Option.some_inj] at h
        obtain ⟨xs, -, r', hr', hrr⟩ := h
        subst hrr
        exact genericLoop_status xs 0 r' hr'
      · rw [if_neg ha] at h
        exact ih r h

/-- Lifting through the todo-API / service tail of the generic handler. -/
theorem genericTail_status (w : Http) (list_id : String) :
    ∀ (r : List NItem), genericTail w list_id = some r →
      ∀ x ∈ r, ∀ v, x.status? = some v → v.eqStr "completed" = false := by
  unfold genericTail
  cases w.todoItems list_id with
  | exn => intro r h; simp at h
  | ok body =>
      intro r h
      simp only [Option.bind_eq_bind, Option.bind_eq_some] at h
      obtain ⟨xs, -, hxs⟩ := h
      exact apiFilterLoop_status xs r hxs
  | err =>
      cases w.getItemsSvc list_id with
      | exn => intro r h; simp at h
      | ok body =>
          intro r h
          simp only [Option.bind_eq_bind, Option.bind_eq_some] at h
          obtain ⟨items, -, xs, -, hxs⟩ := h
          exact apiFilterLoop_status xs r hxs
      | err =>
          intro r h
          simp only [Option.some_inj] at h
          subst h
          intro x hx
          simp at hx

/-- Membership in `o.getD []` comes from a `some` value of `o`. -/
theorem mem_getD_nil {α : Type} (x : α) (o : Option (List α)) (hx : x ∈ o.getD []) :
    ∃ r, o = some r ∧ x ∈ r := by
  cases o with
  | none => simp at hx
  | some r => exact ⟨r, rfl, by simpa using hx⟩

/-- Every `status` value on an item returned by the generic handler
differs from `"completed"`. -/
theorem getGenericItems_status (w : Http) (list_id : String) :
    ∀ x ∈ getGenericItems w list_id, ∀ v, x.status? = some v →
      v.eqStr "completed" = false := by
  have key : ∀ (r : List NItem), genericBody w list_id = some r →
      ∀ x ∈ r, ∀ v, x.status? = some v → v.eqStr "completed" = false := by
    intro r h
    unfold genericBody at h
    split at h
    · simp at h
    · exact genericTail_status w list_id r h
    · split at h
      · simp at h
      · next attrs heqa =>
          split at h
          · simp at h
          · next rr hpr =>
              simp only [Option.some_inj] at h
              subst h
              simp only [genericProbe, Option.bind_eq_bind, Option.bind_eq_some] at hpr
              obtain ⟨a1, -, a2, -, a3, -, a4, -, hpf⟩ := hpr
              exact genericProbeFirst_status [a1, a2, a3, a4] _ hpf
          · split at h
            · simp at h
            · split at h
              · split at h
                · simp at h
                · exact genericTail_status w list_id r h
              · exact genericTail_status w list_id r h
  intro x hx
  unfold getGenericItems at hx
  obtain ⟨r, hb, hxr⟩ := mem_getD_nil x _ hx
  exact key r hb x hxr

/-- C7 counterexample: a CalDav item that is an empty record is kept
(its absent `status` is not the literal `"COMPLETED"`) and comes back
with an empty id, an empty name and no `status` field at all — violating
every part of the claimed `NormalizedItem` shape. -/
theorem c7_caldav_shape_counterexample :
    getCaldavItems w7 "todo.c" = [⟨.vstr "", .vstr "", none⟩] ∧
    ¬ normalizedShapeSpec ⟨.vstr "", .vstr "", none⟩ := by
  constructor
  · rfl
  · rintro ⟨⟨s, hs, hne⟩, -, -⟩
    injection hs with hs
    exact hne hs.symm

/-- C7 amended: returned items always have `id` and `name` fields but
both may be empty; the CalDav and local-todo handlers attach no `status`
field at all, and the generic handler's `status` field carries the raw
item's value (defaulting to `"needs_action"`), which can be any value
other than the filtered `"completed"`. -/
theorem c7_item_shape (w : Http) (list_id : String) :
    (∀ x ∈ getCaldavItems w list_id, x.status? = none) ∧
    (∀ x ∈ getLocalTodoItems w list_id, x.status? = none) ∧
    (∀ x ∈ getGenericItems w list_id, ∀ v, x.status? = some v →
      v.eqStr "completed" = false) := by
  refine ⟨?_, ?_, getGenericItems_status w list_id⟩
  · intro x hx
    unfold getCaldavItems at hx
    split at hx
    · simp at hx
    · simp at hx
    · obtain ⟨r, ho, hxr⟩ := mem_getD_nil x _ hx
      simp only [Option.bind_eq_bind, Option.bind_eq_some] at ho
      obtain ⟨attrs, -, items, -, xs, -, hloop⟩ := ho
      exact caldavLoop_status xs r hloop x hxr
  · intro x hx
    unfold getLocalTodoItems at hx
    split at hx
    · simp at hx
    · simp at hx
    · obtain ⟨r, ho, hxr⟩ := mem_getD_nil x _ hx
      simp only [Option.bind_eq_bind, Option.bind_eq_some] at ho
      obtain ⟨attrs, -, items, -, xs, -, hloop⟩ := ho
      exact localTodoLoop_status xs 0 r hloop x hxr

/-- Witness for C7: the empty-record CalDav item of `w7` has no `status`
field. -/
theorem c7_item_shape_witness :
    NItem.status? ⟨.vstr "", .vstr "", none⟩ = none :=
  (c7_item_shape w7 "todo.c").1 ⟨.vstr "", .vstr "", none⟩
    (show _ ∈ [(⟨.vstr "", .vstr "", none⟩ : NItem)] from List.mem_singleton.mpr rfl)

/-! ## C8 -/

/-- C8: the generic state-attribute loop raises `AttributeError` at
`item.get` on a bare string (its `isinstance(item, str)` branch sits
after the raising calls and is dead), so the whole attempt degrades to
empty — while the alexa state loop, which tests `isinstance` first,
normalizes the same string to an `item_0` entry. -/
theorem c8_string_item_degrades :
    w8.state "todo.g"
        = .ok (.vdict [("attributes", .vdict [("items", .vlist [.vstr "Milk"])])]) ∧
    genericLoop 0 [.vstr "Milk"] = none ∧
    getGenericItems w8 "todo.g" = [] ∧
    ((⟨.vstr "item_0", .vstr "Milk", none⟩ : NItem) ∈ alexaAttrLoop 0 [.vstr "Milk"]) := by
  refine ⟨rfl, rfl, rfl, ?_⟩
  exact List.mem_singleton.mpr rfl

/-! ## C9 -/

/-- A state list with no todo-like entry filters to the empty list. -/
theorem filterTodoLike_none (states : List Value)
    (h : ∀ s ∈ states, todoLikeCheck s = some false) :
    filterTodoLike states = some [] := by
  induction states with
  | nil => rfl
  | cons s rest ih =>
      have hs := h s (List.mem_cons_self s rest)
      have hr := ih (fun t ht => h t (List.mem_cons_of_mem _ ht))
      simp [filterTodoLike, hs, hr]

/-- The summary loop of `get_lists` skips every non-todo entry. -/
theorem getListsLoop_skip (w : Http) (states : List Value)
    (h : ∀ s ∈ states, todoLikeCheck s = some false) :
    getListsLoop w states = some [] := by
  induction states with
  | nil => rfl
  | cons s rest ih =>
      have hs := h s (List.mem_cons_self s rest)
      have hr := ih (fun t ht => h t (List.mem_cons_of_mem _ ht))
      simp only [todoLikeCheck, Option.bind_eq_bind, Option.bind_eq_some] at hs
      obtain ⟨eid, hget, hsw⟩ := hs
      cases eid with
      | vstr lid =>
          simp only [Value.startsWith?, Option.some_inj] at hsw
          rw [getListsLoop]
          rw [hget]
          simp only [Option.bind_eq_bind, Option.some_bind]
          rw [if_neg (by simp [hsw])]
          exact hr
      | vnull => simp [Value.startsWith?] at hsw
      | vbool b => simp [Value.startsWith?] at hsw
      | vint n => simp [Value.startsWith?] at hsw
      | vlist ys => simp [Value.startsWith?] at hsw
      | vdict kvs => simp [Value.startsWith?] at hsw

/-- C9: when the states endpoint lists no todo-like entity,
`get_lists` falls back to the legacy shopping list: a 200 response with
exactly one not-complete item produces the single legacy summary with
`item_count = 1` (and no `integration` key), while a failing legacy
endpoint produces the empty list, never an exception. -/
theorem c9_legacy_fallback
    (w : Http) (states : List Value)
    (hstates : w.states = .ok (.vlist states))
    (hnone : ∀ s ∈ states, todoLikeCheck s = some false) :
    (∀ it c, w.shoppingList = .ok (.vlist [it]) →
        it.get? "complete" (.vbool false) = some c → c.truthy = false →
        getLists w
          = [⟨.vstr "shopping_list.shopping_list", .vstr "Shopping List (Legacy)", 1, none⟩]) ∧
    ((w.shoppingList = .err ∨ w.shoppingList = .exn) → getLists w = []) := by
  have hcommon : getListsBody w
      = (match tryLegacy w with
         | some s => some [s]
         | none => some []) := by
    unfold getListsBody
    rw [hstates]
    simp [Value.iter?, filterTodoLike_none states hnone,
      getListsLoop_skip w states hnone, bringScan, exampleLog]
  constructor
  · intro it c hsl hc hct
    have htl : tryLegacy w
        = some ⟨.vstr "shopping_list.shopping_list", .vstr "Shopping List (Legacy)", 1, none⟩ := by
      unfold tryLegacy
      rw [hsl]
      simp [Value.iter?, legacyCount, hc, hct]
    unfold getLists
    rw [hcommon, htl]
    rfl
  · intro hf
    have htl : tryLegacy w = none := by
      unfold tryLegacy
      rcases hf with hf | hf <;> rw [hf]
    unfold getLists
    rw [hcommon, htl]
    rfl

/-- Witness for C9 at a backend with one sensor entity and the one-item
legacy list; both the success and the failure scenarios are exercised. -/
theorem c9_legacy_fallback_witness :
    getLists w9
        = [⟨.vstr "shopping_list.shopping_list", .vstr "Shopping List (Legacy)", 1, none⟩] ∧
    getLists { w9 with shoppingList := .err } = [] := by
  have h := c9_legacy_fallback w9 [.vdict [("entity_id", .vstr "sensor.a")]] rfl
    (by
      intro s hs
      rw [List.mem_singleton] at hs
      subst hs
      rfl)
  refine ⟨h.1 soapItem (.vbool false) rfl rfl rfl, ?_⟩
  have h2 := c9_legacy_fallback { w9 with shoppingList := .err }
    [.vdict [("entity_id", .vstr "sensor.a")]] rfl
    (by
      intro s hs
      rw [List.mem_singleton] at hs
      subst hs
      rfl)
  exact h2.2 (Or.inl rfl)

/-! ## C10 -/

/-- The summary loop yields exactly one summary per `todo.*` state, each
carrying an `integration` key. -/
theorem getListsLoop_props (w : Http) :
    ∀ (states : List Value) (summaries : List Summary),
      getListsLoop w states = some summaries →
      summaries.length = states.countP isTodoLike ∧
      ∀ x ∈ summaries, x.integration.isSome = true := by
  intro states
  induction states with
  | nil =>
      intro summaries h
      simp only [getListsLoop, Option.some_inj] at h
      subst h
      simp
  | cons s rest ih =>
      intro summaries h
      rw [getListsLoop] at h
      simp only [Option.bind_eq_bind, Option.bind_eq_some] at h
      obtain ⟨eid, hget, hm⟩ := h
      split at hm
      · next eid0 lid' =>
          by_cases hsw : strStartsWith lid' "todo."
          · rw [if_pos hsw] at hm
            simp only [Option.bind_eq_bind, Option.bind_eq_some, Option.pure_def,
              Option.some_inj] at hm
            obtain ⟨attrs, -, fname, -, ig, -, itype, -, rest', hrest, hsum⟩ := hm
            subst hsum
            have hih := ih rest' hrest
            have hst : isTodoLike s = true := by
              simp [isTodoLike, todoLikeCheck, hget, Value.startsWith?, hsw]
            constructor
            · rw [List.countP_cons, hst]
              simp [hih.1]
            · intro x hx
              simp only [List.mem_cons] at hx
              rcases hx with rfl | hx
              · rfl
              · exact hih.2 x hx
          · rw [if_neg hsw] at hm
            have hih := ih summaries hm
            have hst : isTodoLike s = false := by
              simp [isTodoLike, todoLikeCheck, hget, Value.startsWith?, hsw]
            constructor
            · rw [List.countP_cons, hst]
              simp [hih.1]
            · exact hih.2
      · simp at hm

/-- C10: `get_lists` treats a state as todo-like exactly when its
`entity_id` starts with `"todo."`; whenever at least one todo-like state
exists, the output (unless an exception emptied everything) has exactly
one summary per todo-like state, each with an `integration` key — the
legacy summary (which has none) never appears. -/
theorem c10_todo_prefix_excludes_legacy
    (w : Http) (states : List Value)
    (hstates : w.states = .ok (.vlist states))
    (hsome : ∃ s ∈ states, isTodoLike s = true) :
    getLists w = [] ∨
      ((getLists w).length = states.countP isTodoLike ∧
        ∀ x ∈ getLists w, x.integration.isSome = true) := by
  unfold getLists
  cases hb : getListsBody w with
  | none => left; rfl
  | some l =>
      right
      simp only [Option.getD_some]
      unfold getListsBody at hb
      rw [hstates] at hb
      simp only [Value.iter?, Option.some_bind, Option.bind_eq_bind,
        Option.bind_eq_some] at hb
      obtain ⟨te, -, u1, -, u2, -, summaries, hml, hfin⟩ := hb
      have hprops := getListsLoop_props w states summaries hml
      have hpos : 0 < states.countP isTodoLike := by
        obtain ⟨s, hs, hst⟩ := hsome
        exact List.countP_pos_iff.mpr ⟨s, hs, hst⟩
      have hne : summaries.isEmpty = false := by
        rcases summaries with - | ⟨a, rest⟩
        · exfalso
          have := hprops.1
          simp at this
          omega
        · rfl
      rw [if_neg (by simp [hne])] at hfin
      simp only [Option.pure_def, Option.some_inj] at hfin
      subst hfin
      exact hprops

/-- Witness for C10 at a backend with one todo entity and a stocked
legacy endpoint. -/
theorem c10_todo_prefix_excludes_legacy_witness :
    getLists w10 = [] ∨
      ((getLists w10).length
          = [Value.vdict [("entity_id", .vstr "todo.a")]].countP isTodoLike ∧
        ∀ x ∈ getLists w10, x.integration.isSome = true) :=
  c10_todo_prefix_excludes_legacy w10 [.vdict [("entity_id", .vstr "todo.a")]] rfl
    ⟨.vdict [("entity_id", .vstr "todo.a")], List.mem_singleton.mpr rfl, rfl⟩
